import Mathlib

/-!
Shallow embedding of tiny-docker-go (`src/main.go`) and verification of its
specification claims.

Filesystem paths are modelled as lists of path components: the Go call
`filepath.Join(d, x)` becomes `d ++ [x]` on the component lists.
-/

namespace TinyDocker

abbrev Path := List String

/-- Constant `ImagesPath = ".dockie/images"` (src/main.go:20), as components. -/
def imagesPath : Path := [".dockie", "images"]

/-- Constant `ContainerDataPath = ".dockie/containers"` (src/main.go:21). -/
def containerDataPath : Path := [".dockie", "containers"]

/-- The container identifier computed by `RunChild` (src/main.go:228):
`fmt.Sprintf("dockie_%s_%s", image.Name, image.Tag)`. -/
def containerId (name tag : String) : String :=
  "dockie_" ++ name ++ "_" ++ tag

/-- `rootDir := filepath.Join(dataDir, containerId)` (src/main.go:230). -/
def rootDir (name tag : String) : Path :=
  containerDataPath ++ [containerId name tag]

/-- `rootFsDir := filepath.Join(rootDir, "rootfs")` (src/main.go:232). -/
def rootFsDir (name tag : String) : Path := rootDir name tag ++ ["rootfs"]

/-- `rwDir := filepath.Join(rootDir, "cow_rw")` (src/main.go:234). -/
def rwDir (name tag : String) : Path := rootDir name tag ++ ["cow_rw"]

/-- `workDir := filepath.Join(rootDir, "cow_workdir")` (src/main.go:236). -/
def workDir (name tag : String) : Path := rootDir name tag ++ ["cow_workdir"]

/-- The per-container directories initialized at the start of `RunChild`
(src/main.go:229-237). -/
def containerPaths (name tag : String) : List Path :=
  [rootDir name tag, rootFsDir name tag, rwDir name tag, workDir name tag]

/-- `imageDir := filepath.Join(imagesDir, image.Name, "layers", "contents", image.Tag)`
(src/main.go:277): the overlay lower directory. -/
def imageDir (name tag : String) : Path :=
  imagesPath ++ [name, "layers", "contents", tag]

/-- `procDir := filepath.Join(rootDir, "proc")` (src/main.go:287). -/
def procDir (name tag : String) : Path := rootDir name tag ++ ["proc"]

/-- `sysDir := filepath.Join(rootDir, "sys")` (src/main.go:292). -/
def sysDir (name tag : String) : Path := rootDir name tag ++ ["sys"]

/-- `devDir := filepath.Join(rootDir, "dev")` (src/main.go:297). -/
def devDir (name tag : String) : Path := rootDir name tag ++ ["dev"]

/-- `oldRoot := filepath.Join(rootDir, "oldroot")` (src/main.go:308). -/
def oldRootDir (name tag : String) : Path := rootDir name tag ++ ["oldroot"]

/-- `pathLe p q` holds when path `p` equals `q` or is an ancestor of `q`
(component-wise): the path-containment order used to state non-overlap. -/
def pathLe : Path → Path → Bool
  | [], _ => true
  | _ :: _, [] => false
  | a :: p, b :: q => a == b && pathLe p q

/-- Two paths overlap when one equals or is an ancestor of the other. -/
def pathsOverlap (p q : Path) : Bool := pathLe p q || pathLe q p

theorem pathLe_refl (p : Path) : pathLe p p = true := by
  induction p with
  | nil => rfl
  | cons a p ih => simp [pathLe, ih]

theorem pathLe_append (p r : Path) : pathLe p (p ++ r) = true := by
  induction p with
  | nil => rfl
  | cons a p ih => simp [pathLe, ih]

theorem pathLe_trans {p q r : Path} (h1 : pathLe p q = true)
    (h2 : pathLe q r = true) : pathLe p r = true := by
  induction p generalizing q r with
  | nil => rfl
  | cons a p ih =>
    cases q with
    | nil => simp [pathLe] at h1
    | cons b q =>
      cases r with
      | nil => simp [pathLe] at h2
      | cons c r =>
        simp [pathLe] at h1 h2 ⊢
        exact ⟨h1.1.trans h2.1, ih h1.2 h2.2⟩

theorem pathLe_antisymm {p q : Path} (h1 : pathLe p q = true)
    (h2 : pathLe q p = true) : p = q := by
  induction p generalizing q with
  | nil => cases q with
    | nil => rfl
    | cons b q => simp [pathLe] at h2
  | cons a p ih =>
    cases q with
    | nil => simp [pathLe] at h1
    | cons b q =>
      simp [pathLe] at h1 h2
      exact by rw [h1.1, ih h1.2 h2.2]

theorem pathLe_nil_iff {p : Path} : pathLe p [] = true ↔ p = [] := by
  cases p with
  | nil => simp [pathLe]
  | cons a p => simp [pathLe]

/-- A prefix of `l ++ [x]` is a prefix of `l` or is `l ++ [x]` itself. -/
theorem pathLe_snoc_iff {q l : Path} {x : String} :
    pathLe q (l ++ [x]) = true ↔ pathLe q l = true ∨ q = l ++ [x] := by
  induction l generalizing q with
  | nil =>
    cases q with
    | nil => simp [pathLe]
    | cons a q =>
      cases q with
      | nil => simp [pathLe]
      | cons b q => simp [pathLe]
  | cons c l ih =>
    cases q with
    | nil => simp [pathLe]
    | cons a q =>
      constructor
      · intro h
        simp only [List.cons_append, pathLe, Bool.and_eq_true, beq_iff_eq] at h
        obtain ⟨rfl, h2⟩ := h
        rcases ih.mp h2 with h3 | h3
        · exact Or.inl (by simp [pathLe, h3])
        · exact Or.inr (by rw [h3, List.cons_append])
      · intro h
        rcases h with h | h
        · simp only [pathLe, Bool.and_eq_true, beq_iff_eq] at h
          obtain ⟨rfl, h2⟩ := h
          simp only [List.cons_append, pathLe, Bool.and_eq_true, beq_iff_eq]
          exact ⟨by trivial, ih.mpr (Or.inl h2)⟩
        · rw [h]
          exact pathLe_refl _

/-- Containment between two paths that extend a common directory `d` by
different components is impossible unless the components agree. -/
theorem pathLe_append_cons {d : Path} {a b : String} {xs ys : Path}
    (h : pathLe (d ++ a :: xs) (d ++ b :: ys) = true) : a = b := by
  induction d with
  | nil =>
    simp only [List.nil_append, pathLe, Bool.and_eq_true, beq_iff_eq] at h
    exact h.1
  | cons c d ih =>
    simp only [List.cons_append, pathLe, Bool.and_eq_true, beq_iff_eq] at h
    exact ih h.2

theorem snoc_ne_self (l : Path) (x : String) : l ++ [x] ≠ l := by
  intro h
  have := congrArg List.length h
  simp at this

/-! ### Claim C1: the derived container identifier -/

/-- C1 counterexample: the claim says the identifier for name `alpine`,
tag `latest` is exactly `"alpine_latest"`; the code (src/main.go:228)
produces `"dockie_alpine_latest"`. -/
theorem containerId_c1_counterexample :
    containerId "alpine" "latest" ≠ "alpine" ++ "_" ++ "latest" := by
  decide

/-- C1 (amended): the container identifier derived from image name `n` and
tag `t` is exactly `"dockie_" ++ n ++ "_" ++ t`, and it is never the plain
concatenation `n ++ "_" ++ t` stated by the original claim. -/
theorem containerId_c1_amended (n t : String) :
    containerId n t = "dockie_" ++ n ++ "_" ++ t ∧
      containerId n t ≠ n ++ "_" ++ t := by
  refine ⟨rfl, fun h => ?_⟩
  have hl := congrArg String.length h
  have h7 : ("dockie_" : String).length = 7 := rfl
  have h1 : ("_" : String).length = 1 := rfl
  simp only [containerId, String.length_append, h7, h1] at hl
  omega

/-! ### Claim C2: non-overlap of container paths -/

/-- Every container path extends `containerDataPath` by the container
identifier followed by a (possibly empty) suffix. -/
theorem containerPaths_shape {name tag : String} {p : Path}
    (hp : p ∈ containerPaths name tag) :
    ∃ r, p = containerDataPath ++ containerId name tag :: r := by
  simp only [containerPaths, List.mem_cons, List.not_mem_nil, or_false] at hp
  rcases hp with rfl | rfl | rfl | rfl
  · exact ⟨[], by simp [rootDir]⟩
  · exact ⟨["rootfs"], by simp [rootFsDir, rootDir]⟩
  · exact ⟨["cow_rw"], by simp [rwDir, rootDir]⟩
  · exact ⟨["cow_workdir"], by simp [workDir, rootDir]⟩

theorem no_overlap_of_ne_id {id1 id2 : String} (h : id1 ≠ id2)
    (r1 r2 : Path) :
    pathsOverlap (containerDataPath ++ id1 :: r1)
      (containerDataPath ++ id2 :: r2) = false := by
  have h1 : pathLe (containerDataPath ++ id1 :: r1)
      (containerDataPath ++ id2 :: r2) = false := by
    cases hb : pathLe (containerDataPath ++ id1 :: r1)
        (containerDataPath ++ id2 :: r2) with
    | false => rfl
    | true => exact absurd (pathLe_append_cons hb) h
  have h2 : pathLe (containerDataPath ++ id2 :: r2)
      (containerDataPath ++ id1 :: r1) = false := by
    cases hb : pathLe (containerDataPath ++ id2 :: r2)
        (containerDataPath ++ id1 :: r1) with
    | false => rfl
    | true => exact absurd (pathLe_append_cons hb) h.symm
  simp [pathsOverlap, h1, h2]

/-- C2 counterexample: the distinct pairs `("a_b", "c")` and `("a", "b_c")`
derive the same container identifier, hence the very same root directory —
their paths overlap, refuting the claim as stated for all distinct pairs. -/
theorem containerPaths_c2_counterexample :
    (("a_b", "c") ≠ (("a", "b_c") : String × String)) ∧
      rootDir "a_b" "c" = rootDir "a" "b_c" ∧
      pathsOverlap (rootDir "a_b" "c") (rootDir "a" "b_c") = true := by
  refine ⟨by decide, by decide, by decide⟩

/-- C2 (amended): for every two `(name, tag)` pairs whose derived container
identifiers `dockie_<name>_<tag>` differ (rather than for every two distinct
pairs — underscore joining is not injective), the derived container paths
(root, rootfs mount point, copy-on-write upper, work) are pairwise
non-overlapping: none equals or is an ancestor of another. -/
theorem containerPaths_c2_amended (n1 t1 n2 t2 : String)
    (h : containerId n1 t1 ≠ containerId n2 t2) :
    ∀ p ∈ containerPaths n1 t1, ∀ q ∈ containerPaths n2 t2,
      pathsOverlap p q = false := by
  intro p hp q hq
  obtain ⟨r1, rfl⟩ := containerPaths_shape hp
  obtain ⟨r2, rfl⟩ := containerPaths_shape hq
  exact no_overlap_of_ne_id h r1 r2

/-- C2 witness: the amended theorem applied to two concrete image/tag pairs
with distinct identifiers, at their root directories. -/
theorem containerPaths_c2_witness :
    pathsOverlap (rootDir "alpine" "latest") (rootDir "ubuntu" "focal") =
      false :=
  containerPaths_c2_amended "alpine" "latest" "ubuntu" "focal" (by decide)
    (rootDir "alpine" "latest") (by simp [containerPaths])
    (rootDir "ubuntu" "focal") (by simp [containerPaths])

/-! ### Linux constants used by the program (values from `golang.org/x/sys/unix`) -/

def CLONE_NEWUTS : Nat := 0x04000000
def CLONE_NEWPID : Nat := 0x20000000
def CLONE_NEWNS : Nat := 0x00020000
def CLONE_NEWNET : Nat := 0x40000000
def CLONE_NEWIPC : Nat := 0x08000000
def CLONE_NEWUSER : Nat := 0x10000000
def CLONE_NEWCGROUP : Nat := 0x02000000
def CLONE_NEWTIME : Nat := 0x00000080
def MS_PRIVATE : Nat := 0x40000
def MS_REC : Nat := 0x4000
def MS_NODEV : Nat := 0x4
def MS_NOSUID : Nat := 0x2
def MS_STRICTATIME : Nat := 0x1000000
def MNT_DETACH : Nat := 0x2
def S_IFCHR : Nat := 0o020000

/-- The clone flags requested by `Run` at child-process creation
(src/main.go:202-207): `CLONE_NEWUTS | CLONE_NEWPID | CLONE_NEWNS`. -/
def runCloneFlags : Nat := CLONE_NEWUTS ||| CLONE_NEWPID ||| CLONE_NEWNS

/-! ### The Isolation Bootstrapper as a syscall trace

`RunChild` (src/main.go:227-319) is straight-line code: each system call is
wrapped in `noErr`, which panics on the first failure. We embed its body as
the list of calls it issues, in program order. -/

/-- One operation performed by `RunChild`, mirroring the arguments of the
corresponding Go call. -/
inductive Step
  | stepInitDir (dir : Path)
  | stepSethostname (hostname : String)
  | stepMount (source : String) (target : Path) (fstype : String)
      (flags : Nat) (data : String)
  | stepMknod (path : Path) (mode : Nat) (major minor : Nat)
  | stepPivotRoot (newRoot putOld : Path)
  | stepChdir (dir : Path)
  | stepUnmount (target : Path) (flags : Nat)
  | stepExecUser (command : String)
deriving DecidableEq

/-- The option string of the overlay mount (src/main.go:283). -/
def overlayData (name tag : String) : String :=
  "lowerdir=" ++ String.intercalate "/" (imageDir name tag) ++
    ",upperdir=" ++ String.intercalate "/" (rwDir name tag) ++
    ",workdir=" ++ String.intercalate "/" (workDir name tag)

/-- The sequence of operations performed by `RunChild` (src/main.go:227-319),
in program order.  The mount of `/` with `MS_PRIVATE | MS_REC` is the
mount-private step; the `"overlay"` mount composes the root filesystem; the
root path `/` is the empty component list. -/
def runChildSteps (name tag command : String) : List Step :=
  [ .stepInitDir (rootDir name tag),
    .stepInitDir (rootFsDir name tag),
    .stepInitDir (rwDir name tag),
    .stepInitDir (workDir name tag),
    .stepSethostname (containerId name tag),
    .stepMount "rootfs" [] "" (MS_PRIVATE ||| MS_REC) "",
    .stepMount "overlay" (rootDir name tag) "overlay" MS_NODEV
      (overlayData name tag),
    .stepInitDir (procDir name tag),
    .stepMount "proc" (procDir name tag) "proc" 0 "",
    .stepInitDir (sysDir name tag),
    .stepMount "sysfs" (sysDir name tag) "sysfs" 0 "",
    .stepInitDir (devDir name tag),
    .stepMount "tmpfs" (devDir name tag) "tmpfs"
      (MS_NOSUID ||| MS_STRICTATIME) "mode=755",
    .stepMknod (devDir name tag ++ ["null"]) (S_IFCHR ||| 0o666) 1 3,
    .stepMknod (devDir name tag ++ ["tty"]) (S_IFCHR ||| 0o666) 5 0,
    .stepMknod (devDir name tag ++ ["random"]) (S_IFCHR ||| 0o666) 1 8,
    .stepInitDir (oldRootDir name tag),
    .stepPivotRoot (rootDir name tag) (oldRootDir name tag),
    .stepChdir [],
    .stepUnmount ["oldroot"] MNT_DETACH,
    .stepExecUser command ]

def isMountStep : Step → Bool
  | .stepMount _ _ _ _ _ => true
  | _ => false

def isMknodStep : Step → Bool
  | .stepMknod _ _ _ _ => true
  | _ => false

def isExecUserStep : Step → Bool
  | .stepExecUser _ => true
  | _ => false

/-! ### Claim C6: exactly the three namespaces UTS, PID, mount -/

/-- C6: `Run` requests exactly the UTS, PID and mount namespaces at
child-process creation (src/main.go:204-206): the clone flags are the union
of those three flags, each of the three bits is set, and none of the other
namespace clone flags (net, IPC, user, cgroup, time) is set. -/
theorem runCloneFlags_c6 :
    runCloneFlags = CLONE_NEWUTS ||| CLONE_NEWPID ||| CLONE_NEWNS ∧
      runCloneFlags &&& CLONE_NEWUTS ≠ 0 ∧
      runCloneFlags &&& CLONE_NEWPID ≠ 0 ∧
      runCloneFlags &&& CLONE_NEWNS ≠ 0 ∧
      runCloneFlags &&& CLONE_NEWNET = 0 ∧
      runCloneFlags &&& CLONE_NEWIPC = 0 ∧
      runCloneFlags &&& CLONE_NEWUSER = 0 ∧
      runCloneFlags &&& CLONE_NEWCGROUP = 0 ∧
      runCloneFlags &&& CLONE_NEWTIME = 0 := by
  refine ⟨rfl, ?_, ?_, ?_, ?_, ?_, ?_, ?_, ?_⟩ <;> decide

/-! ### Claim C7: the device nodes created by bootstrap step 6 -/

/-- C7: for every image name, tag and command, the mknod calls issued by
`RunChild` are exactly three (src/main.go:300-305): `null` with device
(1,3), `tty` with (5,0) and `random` with (1,8), each a character device
with permission bits 0666, all directly under the container's `/dev`; and
the `/dev` tmpfs itself is mounted with `MS_NOSUID | MS_STRICTATIME`
(src/main.go:299). -/
theorem runChildSteps_c7 (name tag command : String) :
    (runChildSteps name tag command).filter isMknodStep =
      [ .stepMknod (devDir name tag ++ ["null"]) (S_IFCHR ||| 0o666) 1 3,
        .stepMknod (devDir name tag ++ ["tty"]) (S_IFCHR ||| 0o666) 5 0,
        .stepMknod (devDir name tag ++ ["random"]) (S_IFCHR ||| 0o666) 1 8 ] ∧
      Step.stepMount "tmpfs" (devDir name tag) "tmpfs"
          (MS_NOSUID ||| MS_STRICTATIME) "mode=755" ∈
        runChildSteps name tag command ∧
      (S_IFCHR ||| 0o666) &&& 0o7777 = 0o666 ∧
      (S_IFCHR ||| 0o666) &&& 0o170000 = S_IFCHR := by
  refine ⟨rfl, ?_, by decide, by decide⟩
  simp [runChildSteps]

/-! ### Claim C8: mount-private precedes every other mount -/

/-- C8: for every image name, tag and command, the mount operations issued
by `RunChild`, in program order, are: first the recursive `MS_PRIVATE`
remount of `/` (src/main.go:273), then the overlay mount (src/main.go:278),
then the `/proc`, `/sys` and `/dev` mounts — so the mount-private step
precedes the overlay mount and every other mount operation. -/
theorem runChildSteps_c8 (name tag command : String) :
    (runChildSteps name tag command).filter isMountStep =
      [ .stepMount "rootfs" [] "" (MS_PRIVATE ||| MS_REC) "",
        .stepMount "overlay" (rootDir name tag) "overlay" MS_NODEV
          (overlayData name tag),
        .stepMount "proc" (procDir name tag) "proc" 0 "",
        .stepMount "sysfs" (sysDir name tag) "sysfs" 0 "",
        .stepMount "tmpfs" (devDir name tag) "tmpfs"
          (MS_NOSUID ||| MS_STRICTATIME) "mode=755" ] := rfl

/-! ### Execution semantics: failure and abort

Every call in `RunChild` is wrapped in `noErr` (src/main.go:338-342), which
panics on a non-nil error, and `Run` wraps the child wait in `noErr` as well
(src/main.go:212).  The environment records the two failure sources the
claims are about.  Modelled from the spec: the kernel behavior of the two
fallible operations, which is outside `src/` — a missing overlay lower
directory makes the overlay mount fail (§4.3 "a missing lower path causes
the mount to fail fatally"), and `exec.Command(command).Run()` returns an
error exactly when the command cannot start or exits non-zero. -/

structure Env where
  lowerExists : Bool
  /-- `none`: the user command cannot start; `some n`: it exits with code `n`. -/
  userExit : Option Nat
deriving DecidableEq

/-- Whether a step's underlying call returns a non-nil error in environment
`e` (all other calls are assumed to succeed in a privileged environment). -/
def stepFails (e : Env) : Step → Bool
  | .stepMount _ _ fstype _ _ => fstype == "overlay" && !e.lowerExists
  | .stepExecUser _ => !(e.userExit == some 0)
  | _ => false

inductive Outcome
  | exited (code : Nat)
  | panicked
deriving DecidableEq

/-- Run a step list under `noErr` semantics: each step is attempted in
order; the first failing call makes the process panic and nothing after it
runs.  Returns the attempted steps and the process outcome. -/
def execSteps (e : Env) : List Step → List Step × Outcome
  | [] => ([], .exited 0)
  | s :: rest =>
    if stepFails e s then ([s], .panicked)
    else
      let r := execSteps e rest
      (s :: r.1, r.2)

/-- The outcome of the re-executed child process. -/
def childOutcome (e : Env) (name tag command : String) : Outcome :=
  (execSteps e (runChildSteps name tag command)).2

/-- The outcome of the whole `run` invocation: `Run` waits on the child via
`noErr(cmd.Run())` (src/main.go:212), so a child that did not exit 0 makes
the launcher panic as well. -/
def containerOutcome (e : Env) (name tag command : String) : Outcome :=
  match childOutcome e name tag command with
  | .exited 0 => .exited 0
  | _ => .panicked

/-- An event of the whole `run` execution: `Run` creates the child with the
namespace clone flags (src/main.go:201-207) unconditionally, before the
child attempts any of its steps. -/
inductive Event
  | cloneNamespaces (flags : Nat)
  | childStep (s : Step)
deriving DecidableEq

/-- The events of one `run` invocation, in order: the namespace-creating
clone, then the child steps that were actually attempted. -/
def runEvents (e : Env) (name tag command : String) : List Event :=
  .cloneNamespaces runCloneFlags ::
    (execSteps e (runChildSteps name tag command)).1.map .childStep

/-! ### Claim C4: exit status of the user command -/

/-- C4 counterexample: with the lower directory present and a user command
that exits with status 7, the container does not exit with status 7 — the
child's `noErr(cmd.Run())` (src/main.go:318) panics, so the user command's
exit status is not reported as the container's own exit status. -/
theorem containerOutcome_c4_counterexample :
    containerOutcome ⟨true, some 7⟩ "alpine" "latest" "sh" = .panicked ∧
      Outcome.panicked ≠ Outcome.exited 7 := by
  refine ⟨by decide, by decide⟩

/-- C4 (amended): the final command is run as a waited-on subprocess, not by
replacing the process image, and only success propagates: when isolation
setup succeeds (the lower directory exists), the container exits 0 exactly
when the user command exits 0; any failure of the final step (command not
found or non-zero exit) makes the child panic through the same `noErr` used
for isolation-setup errors, so it is reported as a panic abort, not as the
command's own exit status. -/
theorem containerOutcome_c4_amended (e : Env) (name tag command : String)
    (h : e.lowerExists = true) :
    containerOutcome e name tag command = .exited 0 ↔ e.userExit = some 0 := by
  obtain ⟨le, ue⟩ := e
  simp only at h
  subst h
  by_cases hu : ue = some 0
  · subst hu
    simp [containerOutcome, childOutcome, execSteps, runChildSteps, stepFails]
  · have hb : (ue == some 0) = false := by
      cases hbeq : ue == some 0 with
      | false => rfl
      | true => exact absurd (eq_of_beq hbeq) hu
    simp [containerOutcome, childOutcome, execSteps, runChildSteps, stepFails,
      hb, hu]

/-- C4 witness: the amended theorem at a concrete environment in which the
user command exits 0. -/
theorem containerOutcome_c4_witness :
    containerOutcome ⟨true, some 0⟩ "alpine" "latest" "sh" = .exited 0 ↔
      (⟨true, some 0⟩ : Env).userExit = some 0 :=
  containerOutcome_c4_amended ⟨true, some 0⟩ "alpine" "latest" "sh" rfl

/-! ### Claim C5: missing lower directory -/

/-- C5 counterexample: with the lower directory missing, the
namespace-creating clone is nevertheless reached — it is the first event of
every `run` execution (src/main.go:201-207), performed before the child can
check anything on disk — refuting the claim that the namespace-creation
step is never reached when the lower path is missing. -/
theorem runEvents_c5_counterexample :
    Event.cloneNamespaces runCloneFlags ∈
      runEvents ⟨false, some 0⟩ "alpine" "latest" "sh" := by
  simp [runEvents]

/-- C5 (amended): if the image's lower directory does not exist, the `run`
command fails fatally before the user command is ever executed — the child
aborts at the overlay mount and the launcher panics — but the namespaces
have already been created at child spawn: the clone with the namespace
flags is the first event of the execution, so the failure happens after,
not before, namespace creation. -/
theorem runEvents_c5_amended (e : Env) (name tag command : String)
    (h : e.lowerExists = false) :
    containerOutcome e name tag command = .panicked ∧
      (∀ s ∈ (execSteps e (runChildSteps name tag command)).1,
        isExecUserStep s = false) ∧
      (runEvents e name tag command).head? =
        some (.cloneNamespaces runCloneFlags) := by
  obtain ⟨le, ue⟩ := e
  simp only at h
  subst h
  refine ⟨?_, ?_, rfl⟩
  · simp [containerOutcome, childOutcome, execSteps, runChildSteps, stepFails]
  · simp [execSteps, runChildSteps, stepFails, isExecUserStep]

/-- C5 witness: the amended theorem at a concrete environment with the
lower directory missing. -/
theorem runEvents_c5_witness :
    containerOutcome ⟨false, some 0⟩ "alpine" "latest" "sh" = .panicked ∧
      (∀ s ∈ (execSteps ⟨false, some 0⟩
          (runChildSteps "alpine" "latest" "sh")).1,
        isExecUserStep s = false) ∧
      (runEvents ⟨false, some 0⟩ "alpine" "latest" "sh").head? =
        some (.cloneNamespaces runCloneFlags) :=
  runEvents_c5_amended ⟨false, some 0⟩ "alpine" "latest" "sh" rfl

/-! ### Claim C3: write isolation of the overlay mount

Modelled from the spec: the semantics of the overlay filesystem mounted at
src/main.go:278-284 is implemented by the kernel, not by code under `src/`.
Following §4.3, the mounted root merges a read-only lower directory (the
image layer contents) with a writable upper directory (`cow_rw`): reads
through the root see the upper entry when present and the lower entry
otherwise, and writes through the root land in the upper directory only. -/

/-- The state of a mounted overlay: the lower (image layer) directory and
the upper (copy-on-write) directory, each a partial map from paths to file
contents. -/
structure Overlay where
  lower : Path → Option String
  upper : Path → Option String

/-- A read through the mounted container root: upper entries shadow lower
ones. -/
def Overlay.read (o : Overlay) (p : Path) : Option String :=
  match o.upper p with
  | some v => some v
  | none => o.lower p

/-- A write through the mounted container root: it lands in the upper
directory. -/
def Overlay.write (o : Overlay) (p : Path) (v : String) : Overlay :=
  { o with upper := fun q => if q = p then some v else o.upper q }

/-- A sequence of writes through the mounted container root. -/
def Overlay.writeAll (o : Overlay) : List (Path × String) → Overlay
  | [] => o
  | (p, v) :: ws => (o.write p v).writeAll ws

/-- C3: after the overlay mount, every write through the container root is
observable through the root, the lower (image layer) directory is unchanged
by it — also after any sequence of writes — and only the upper directory
receives the write: it is updated at the written path and untouched
elsewhere. -/
theorem overlay_c3 (o : Overlay) (p : Path) (v : String) :
    (o.write p v).read p = some v ∧
      (o.write p v).lower = o.lower ∧
      (o.write p v).upper p = some v ∧
      (∀ q, q ≠ p → (o.write p v).upper q = o.upper q) ∧
      (∀ ws : List (Path × String), (o.writeAll ws).lower = o.lower) := by
  refine ⟨by simp [Overlay.read, Overlay.write], rfl,
    by simp [Overlay.write], ?_, ?_⟩
  · intro q hq
    simp [Overlay.write, hq]
  · intro ws
    induction ws generalizing o with
    | nil => rfl
    | cons w ws ih => exact (ih (o.write w.1 w.2)).trans rfl

/-! ### Claim C10: argument parsing panics

`main` (src/main.go:24-49) evaluates `strings.Split(os.Args[2], ":")` and
indexes the result at 0 and 1 before the `switch` on `os.Args[1]`
dispatches any subcommand; an out-of-bounds index panics. -/

/-- Go `strings.Split` on a single-character separator, on the character
list of the string. -/
def goSplitAux (sep : Char) : List Char → List Char → List (List Char)
  | acc, [] => [acc.reverse]
  | acc, c :: cs =>
    if c == sep then acc.reverse :: goSplitAux sep [] cs
    else goSplitAux sep (c :: acc) cs

/-- Go `strings.Split(s, sep)` for a one-character separator `sep`. -/
def goSplit (s : String) (sep : Char) : List String :=
  (goSplitAux sep [] s.data).map List.asString

/-- The `Image` value built by `main` (src/main.go:30-33): the fields the
container core uses. -/
structure Image where
  name : String
  tag : String
deriving DecidableEq

/-- What a `main` invocation does after the argument accesses: panic with an
index-out-of-range error, panic on an unknown subcommand (src/main.go:47),
or dispatch one of the three subcommands. -/
inductive MainResult
  | panicIndexOutOfRange
  | panicUnknownCommand
  | didPull (img : Image)
  | didRun (img : Image)
  | didChild (img : Image) (command : String)
deriving DecidableEq

/-- `main` (src/main.go:24-49) on the argument vector `args` (including the
program name at index 0): it evaluates `s := strings.Split(args[2], ":")`,
then `s[0]` and `s[1]`, and only then switches on `args[1]`; the `child`
arm additionally reads `args[3]`.  Out-of-range indexing is a panic. -/
def mainGo (args : List String) : MainResult :=
  match args[2]? with
  | none => .panicIndexOutOfRange
  | some a2 =>
    let s := goSplit a2 ':'
    match s[1]? with
    | none => .panicIndexOutOfRange
    | some tag =>
      let img : Image := ⟨s.headD "", tag⟩
      match args[1]? with
      | none => .panicIndexOutOfRange
      | some sub =>
        if sub == "pull" then .didPull img
        else if sub == "run" then .didRun img
        else if sub == "child" then
          match args[3]? with
          | none => .panicIndexOutOfRange
          | some c => .didChild img c
        else .panicUnknownCommand

/-- Splitting a string that does not contain the separator yields a single
fragment. -/
theorem goSplitAux_no_sep {sep : Char} {cs : List Char} (h : sep ∉ cs)
    (acc : List Char) : goSplitAux sep acc cs = [acc.reverse ++ cs] := by
  induction cs generalizing acc with
  | nil => simp [goSplitAux]
  | cons c cs ih =>
    have hc : (c == sep) = false := by
      cases hb : c == sep with
      | false => rfl
      | true => exact absurd (eq_of_beq hb) (fun hcs => h (hcs ▸ List.mem_cons_self c cs))
    rw [goSplitAux, hc]
    simp only [Bool.false_eq_true, if_false]
    rw [ih (fun hm => h (List.mem_cons_of_mem c hm))]
    simp

/-- C10: for every invocation of the program — whichever subcommand — if
fewer than three entries are in the argument vector, or the image argument
at index 2 contains no `':'` separator, `main` panics with an
index-out-of-range error before dispatching any subcommand. -/
theorem mainGo_c10 (args : List String)
    (h : args.length < 3 ∨
      ∃ a2, args[2]? = some a2 ∧ ':' ∉ a2.data) :
    mainGo args = .panicIndexOutOfRange := by
  rcases h with h | ⟨a2, ha2, hc⟩
  · have : args[2]? = none := by
      rw [List.getElem?_eq_none_iff]
      omega
    simp [mainGo, this]
  · have hsplit : goSplit a2 ':' = [a2.data.asString] := by
      rw [goSplit, goSplitAux_no_sep hc]
      rfl
    simp [mainGo, ha2, hsplit]

/-- C10 witness: a three-entry argument vector whose image argument lacks a
`':'` makes `main` panic. -/
theorem mainGo_c10_witness :
    mainGo ["tinydocker", "run", "alpine"] = .panicIndexOutOfRange :=
  mainGo_c10 ["tinydocker", "run", "alpine"]
    (Or.inr ⟨"alpine", rfl, by decide⟩)

/-! ### Claim C9: container-path initialization is idempotent under reset

`initDir` (src/main.go:344-351) removes any pre-existing entry at a path
(with everything below it) and recreates the path as an empty directory.
We model a filesystem as a partial map from paths to entries. -/

inductive Entry
  | dir
  | file (content : String)
deriving DecidableEq

/-- A filesystem state: a partial map from paths to entries. -/
def FS := Path → Option Entry

/-- Go `os.RemoveAll(dir)`: removes the entry at `dir` together with
everything below it. -/
def removeAll (fs : FS) (p : Path) : FS :=
  fun q => if pathLe p q then none else fs q

/-- Go `os.MkdirAll(dir, 0755)`: creates a directory at `dir` and at every
missing ancestor of it. -/
def mkdirAll (fs : FS) (p : Path) : FS :=
  fun q => if pathLe q p && (fs q).isNone then some Entry.dir else fs q

/-- `initDir` (src/main.go:344-351): if `os.Stat` finds the path, it is
removed with all its contents; afterwards the path does not exist, so it is
recreated with `os.MkdirAll`. -/
def initDir (fs : FS) (p : Path) : FS :=
  let fs1 := if (fs p).isSome then removeAll fs p else fs
  if (fs1 p).isSome then fs1 else mkdirAll fs1 p

/-- The four directory initializations at the start of `RunChild`
(src/main.go:229-237), in program order. -/
def initContainerDirs (fs : FS) (name tag : String) : FS :=
  initDir (initDir (initDir (initDir fs (rootDir name tag))
    (rootFsDir name tag)) (rwDir name tag)) (workDir name tag)

/-- A real filesystem cannot hold an entry below a missing directory. -/
def subtreeClosed (fs : FS) (p : Path) : Prop :=
  fs p = none → ∀ q, pathLe p q = true → fs q = none

theorem initDir_eq (fs : FS) (p : Path) :
    initDir fs p =
      mkdirAll (if (fs p).isSome then removeAll fs p else fs) p := by
  unfold initDir
  cases h : (fs p).isSome with
  | true =>
    have h1 : removeAll fs p p = none := by simp [removeAll, pathLe_refl]
    simp [h, h1]
  | false =>
    have h0 : fs p = none := by
      cases hfp : fs p with
      | none => rfl
      | some v => rw [hfp] at h; simp at h
    simp [h, h0]

/-- Inside the subtree of `p`, `initDir` leaves exactly one entry: an empty
directory at `p` itself (assuming no entry dangles below a missing `p`). -/
theorem initDir_in_subtree {fs : FS} {p : Path}
    (hcl : fs p = none → ∀ r, pathLe p r = true → fs r = none)
    {q : Path} (hq : pathLe p q = true) :
    initDir fs p q = if q = p then some Entry.dir else none := by
  rw [initDir_eq]
  cases hfs : (fs p).isSome with
  | true =>
    simp only [hfs, if_true]
    by_cases hqp : q = p
    · subst hqp
      simp [mkdirAll, removeAll, pathLe_refl]
    · have h1 : removeAll fs p q = none := by simp [removeAll, hq]
      have h2 : pathLe q p = false := by
        cases hb : pathLe q p with
        | false => rfl
        | true => exact absurd (pathLe_antisymm hb hq) hqp
      simp [mkdirAll, h1, h2, hqp]
  | false =>
    have h0 : fs p = none := by
      cases hfp : fs p with
      | none => rfl
      | some v => rw [hfp] at hfs; simp at hfs
    simp only [hfs, Bool.false_eq_true, if_false]
    by_cases hqp : q = p
    · subst hqp
      simp [mkdirAll, h0, pathLe_refl]
    · have hq2 : fs q = none := hcl h0 q hq
      have h2 : pathLe q p = false := by
        cases hb : pathLe q p with
        | false => rfl
        | true => exact absurd (pathLe_antisymm hb hq) hqp
      simp [mkdirAll, hq2, h2, hqp]

/-- Outside the subtree of `p`, `initDir` only fills in missing ancestor
directories of `p`. -/
theorem initDir_outside {fs : FS} {p q : Path} (hq : pathLe p q = false) :
    initDir fs p q =
      if pathLe q p && (fs q).isNone then some Entry.dir else fs q := by
  rw [initDir_eq]
  cases hfs : (fs p).isSome with
  | true =>
    have h1 : removeAll fs p q = fs q := by simp [removeAll, hq]
    simp [mkdirAll, h1]
  | false => simp [mkdirAll, hfs]

/-- One `initDir` of a fresh child `R ++ [x]` of an initialized directory
`R` whose subtree holds exactly an empty directory at `R` and at the
children `R ++ [y]` for `y ∈ ys`: the child is added to the subtree and
nothing outside the subtree changes. -/
theorem initDir_child {g : FS} {R : Path} {ys : List String} {x : String}
    (hx : x ∉ ys)
    (hin : ∀ q, pathLe R q = true →
      g q = if q = R ∨ ∃ y ∈ ys, q = R ++ [y] then some Entry.dir else none)
    (hanc : ∀ q, pathLe R q = false → pathLe q R = true →
      (g q).isSome = true) :
    ∀ q, initDir g (R ++ [x]) q =
      if pathLe R q = true then
        (if q = R ∨ ∃ y ∈ x :: ys, q = R ++ [y] then some Entry.dir else none)
      else g q := by
  have hRX : pathLe R (R ++ [x]) = true := pathLe_append R [x]
  have hRXne : R ++ [x] ≠ R := snoc_ne_self R x
  have hcl : g (R ++ [x]) = none →
      ∀ r, pathLe (R ++ [x]) r = true → g r = none := by
    intro _ r hr
    have hRr : pathLe R r = true := pathLe_trans hRX hr
    have hnc : ¬(r = R ∨ ∃ y ∈ ys, r = R ++ [y]) := by
      rintro (rfl | ⟨y, hy, rfl⟩)
      · exact hRXne (pathLe_antisymm hr hRX)
      · exact hx (by rw [pathLe_append_cons hr]; exact hy)
    rw [hin r hRr, if_neg hnc]
  intro q
  by_cases hq : pathLe R q = true
  · rw [if_pos hq]
    by_cases hq2 : pathLe (R ++ [x]) q = true
    · rw [initDir_in_subtree hcl hq2]
      by_cases hqx : q = R ++ [x]
      · rw [if_pos hqx, if_pos (Or.inr ⟨x, List.mem_cons_self x ys, hqx⟩)]
      · have hnc : ¬(q = R ∨ ∃ y ∈ x :: ys, q = R ++ [y]) := by
          rintro (rfl | ⟨y, hy, rfl⟩)
          · exact hRXne (pathLe_antisymm hq2 hRX)
          · rcases List.mem_cons.mp hy with rfl | hy2
            · exact hqx rfl
            · exact hx (by rw [pathLe_append_cons hq2]; exact hy2)
        rw [if_neg hqx, if_neg hnc]
    · have hq2f : pathLe (R ++ [x]) q = false := by
        cases hb : pathLe (R ++ [x]) q with
        | false => rfl
        | true => exact absurd hb hq2
      rw [initDir_outside hq2f]
      by_cases hold : q = R ∨ ∃ y ∈ ys, q = R ++ [y]
      · have hgq : g q = some Entry.dir := by rw [hin q hq, if_pos hold]
        have hnew : q = R ∨ ∃ y ∈ x :: ys, q = R ++ [y] := by
          rcases hold with h | ⟨y, hy, h⟩
          · exact Or.inl h
          · exact Or.inr ⟨y, List.mem_cons_of_mem x hy, h⟩
        rw [hgq, if_pos hnew]
        simp
      · have hgq : g q = none := by rw [hin q hq, if_neg hold]
        have hnew : ¬(q = R ∨ ∃ y ∈ x :: ys, q = R ++ [y]) := by
          rintro (rfl | ⟨y, hy, rfl⟩)
          · exact hold (Or.inl rfl)
          · rcases List.mem_cons.mp hy with rfl | hy2
            · simp [pathLe_refl] at hq2f
            · exact hold (Or.inr ⟨y, hy2, rfl⟩)
        have hqa : pathLe q (R ++ [x]) = false := by
          cases hb : pathLe q (R ++ [x]) with
          | false => rfl
          | true =>
            exfalso
            rcases pathLe_snoc_iff.mp hb with hqR | rfl
            · exact hold (Or.inl (pathLe_antisymm hqR hq))
            · simp [pathLe_refl] at hq2f
        rw [hgq, hqa, if_neg hnew]
        simp
  · rw [if_neg hq]
    have hqf : pathLe R q = false := by
      cases hb : pathLe R q with
      | false => rfl
      | true => exact absurd hb hq
    have hq2f : pathLe (R ++ [x]) q = false := by
      cases hb : pathLe (R ++ [x]) q with
      | false => rfl
      | true => exact absurd (pathLe_trans hRX hb) hq
    rw [initDir_outside hq2f]
    by_cases hqa : pathLe q (R ++ [x]) = true
    · rcases pathLe_snoc_iff.mp hqa with hqR | rfl
      · have hs := hanc q hqf hqR
        have hn : (g q).isNone = false := by
          cases hgq : g q with
          | none => rw [hgq] at hs; simp at hs
          | some v => simp
        rw [hn]
        simp
      · simp [hRX] at hqf
    · have hqaf : pathLe q (R ++ [x]) = false := by
        cases hb : pathLe q (R ++ [x]) with
        | false => rfl
        | true => exact absurd hb hqa
      rw [hqaf]
      simp

/-- Full characterization of the four-fold initialization chain of
`RunChild`: inside the subtree of `R` exactly the four directories remain,
as empty directories; outside, only missing ancestors of `R` are created
and everything else is untouched. -/
theorem initChain_char (fs : FS) (R : Path)
    (hcl : fs R = none → ∀ r, pathLe R r = true → fs r = none) (q : Path) :
    initDir (initDir (initDir (initDir fs R) (R ++ ["rootfs"]))
        (R ++ ["cow_rw"])) (R ++ ["cow_workdir"]) q =
      if pathLe R q = true then
        (if q = R ∨ q = R ++ ["rootfs"] ∨ q = R ++ ["cow_rw"] ∨
            q = R ++ ["cow_workdir"] then some Entry.dir else none)
      else if pathLe q R && (fs q).isNone then some Entry.dir
      else fs q := by
  have hin1 : ∀ r, pathLe R r = true →
      initDir fs R r =
        if r = R ∨ ∃ y ∈ ([] : List String), r = R ++ [y] then some Entry.dir
        else none := by
    intro r hr
    rw [initDir_in_subtree hcl hr]
    by_cases h : r = R
    · rw [if_pos h, if_pos (Or.inl h)]
    · rw [if_neg h, if_neg]
      rintro (h2 | ⟨y, hy, _⟩)
      · exact h h2
      · exact absurd hy (List.not_mem_nil y)
  have hanc1 : ∀ r, pathLe R r = false → pathLe r R = true →
      (initDir fs R r).isSome = true := by
    intro r h1 h2
    rw [initDir_outside h1]
    cases hn : (fs r).isNone with
    | true => simp [h2, hn]
    | false =>
      simp only [hn, Bool.and_false, Bool.false_eq_true, if_false]
      cases hfr : fs r with
      | none => rw [hfr] at hn; simp at hn
      | some v => simp
  have c2 := initDir_child
    (show "rootfs" ∉ ([] : List String) by simp) hin1 hanc1
  have hin2 : ∀ r, pathLe R r = true →
      initDir (initDir fs R) (R ++ ["rootfs"]) r =
        if r = R ∨ ∃ y ∈ ["rootfs"], r = R ++ [y] then some Entry.dir
        else none := by
    intro r hr
    rw [c2 r, if_pos hr]
  have hanc2 : ∀ r, pathLe R r = false → pathLe r R = true →
      (initDir (initDir fs R) (R ++ ["rootfs"]) r).isSome = true := by
    intro r h1 h2
    rw [c2 r, if_neg (by simp [h1])]
    exact hanc1 r h1 h2
  have c3 := initDir_child
    (show "cow_rw" ∉ ["rootfs"] by simp) hin2 hanc2
  have hin3 : ∀ r, pathLe R r = true →
      initDir (initDir (initDir fs R) (R ++ ["rootfs"])) (R ++ ["cow_rw"]) r =
        if r = R ∨ ∃ y ∈ ["cow_rw", "rootfs"], r = R ++ [y] then some Entry.dir
        else none := by
    intro r hr
    rw [c3 r, if_pos hr]
  have hanc3 : ∀ r, pathLe R r = false → pathLe r R = true →
      (initDir (initDir (initDir fs R) (R ++ ["rootfs"]))
        (R ++ ["cow_rw"]) r).isSome = true := by
    intro r h1 h2
    rw [c3 r, if_neg (by simp [h1])]
    exact hanc2 r h1 h2
  have c4 := initDir_child
    (show "cow_workdir" ∉ ["cow_rw", "rootfs"] by simp) hin3 hanc3
  rw [c4 q]
  by_cases hq : pathLe R q = true
  · rw [if_pos hq, if_pos hq]
    have hiff : (q = R ∨ ∃ y ∈ ["cow_workdir", "cow_rw", "rootfs"],
        q = R ++ [y]) ↔
        (q = R ∨ q = R ++ ["rootfs"] ∨ q = R ++ ["cow_rw"] ∨
          q = R ++ ["cow_workdir"]) := by
      simp only [List.mem_cons, List.not_mem_nil, or_false, exists_eq_or_imp,
        exists_eq_left]
      tauto
    exact if_congr hiff rfl rfl
  · have hqf : pathLe R q = false := by
      cases hb : pathLe R q with
      | false => rfl
      | true => exact absurd hb hq
    simp only [if_neg hq]
    rw [c3 q, if_neg hq, c2 q, if_neg hq]
    exact initDir_outside hqf

/-- The characterization transported to `initContainerDirs`. -/
theorem initContainerDirs_char (fs : FS) (name tag : String)
    (hcl : subtreeClosed fs (rootDir name tag)) (q : Path) :
    initContainerDirs fs name tag q =
      if pathLe (rootDir name tag) q = true then
        (if q ∈ containerPaths name tag then some Entry.dir else none)
      else if pathLe q (rootDir name tag) && (fs q).isNone then some Entry.dir
      else fs q := by
  have h := initChain_char fs (rootDir name tag) hcl q
  have hmem : (q ∈ containerPaths name tag) ↔
      (q = rootDir name tag ∨ q = rootDir name tag ++ ["rootfs"] ∨
        q = rootDir name tag ++ ["cow_rw"] ∨
        q = rootDir name tag ++ ["cow_workdir"]) := by
    simp [containerPaths, rootFsDir, rwDir, workDir]
  rw [show initContainerDirs fs name tag =
      initDir (initDir (initDir (initDir fs (rootDir name tag))
        (rootDir name tag ++ ["rootfs"])) (rootDir name tag ++ ["cow_rw"]))
        (rootDir name tag ++ ["cow_workdir"]) from rfl]
  rw [h]
  by_cases hq : pathLe (rootDir name tag) q = true
  · rw [if_pos hq, if_pos hq]
    exact if_congr hmem.symm rfl rfl
  · rw [if_neg hq, if_neg hq]

/-- C9: container-path initialization is idempotent under reset, provided
no entry dangles below a missing container root (true of every real
filesystem state): running the four-fold wipe-and-recreate a second time
for the same identifier yields a state equal to the first run's, and after
a run the container subtree holds exactly the four paths as empty
directories — any pre-existing directory there has been removed, so no
residue from a prior run survives. -/
theorem initContainerDirs_c9 (fs : FS) (name tag : String)
    (hcl : subtreeClosed fs (rootDir name tag)) :
    initContainerDirs (initContainerDirs fs name tag) name tag =
        initContainerDirs fs name tag ∧
      ∀ q, pathLe (rootDir name tag) q = true →
        initContainerDirs fs name tag q =
          if q ∈ containerPaths name tag then some Entry.dir else none := by
  have hchar := initContainerDirs_char fs name tag hcl
  constructor
  · have hcl2 : subtreeClosed (initContainerDirs fs name tag)
        (rootDir name tag) := by
      intro hnone q hq
      exfalso
      have hR := hchar (rootDir name tag)
      rw [if_pos (pathLe_refl _), if_pos (by simp [containerPaths])] at hR
      rw [hR] at hnone
      exact Option.some_ne_none _ hnone
    funext q
    rw [initContainerDirs_char _ name tag hcl2 q, hchar q]
    by_cases hq : pathLe (rootDir name tag) q = true
    · rw [if_pos hq, if_pos hq]
    · rw [if_neg hq, if_neg hq]
      cases hpq : pathLe q (rootDir name tag) with
      | false => simp [hpq]
      | true =>
        cases hn : (fs q).isNone with
        | true => simp [hpq, hn]
        | false => simp [hpq, hn]
  · intro q hq
    rw [hchar q, if_pos hq]

/-- C9 witness: the theorem applied to the empty filesystem, which is
trivially subtree-closed. -/
theorem initContainerDirs_c9_witness :
    initContainerDirs (initContainerDirs (fun _ => none) "alpine" "latest")
        "alpine" "latest" =
        initContainerDirs (fun _ => none) "alpine" "latest" ∧
      ∀ q, pathLe (rootDir "alpine" "latest") q = true →
        initContainerDirs (fun _ => none) "alpine" "latest" q =
          if q ∈ containerPaths "alpine" "latest" then some Entry.dir
          else none :=
  initContainerDirs_c9 (fun _ => none) "alpine" "latest" (fun _ q _ => rfl)

end TinyDocker
